import Mathlib

/-!
Verification of the cargo cluster orchestrator (package cargo).

This file gives a shallow embedding of the orchestration core found in
libcargo (cloudenv.go, cluster.go xref provider, docker.go, variables.go)
and proves the testable properties of its specification against it.

Go strings are modelled as Lean String values (lists of characters);
byte indices coincide with character indices on the ASCII inputs the
properties quantify over.  Fallible external operations (the container
engine, the filesystem) are modelled as oracle fields of explicit world
structures, and the side effects a function issues are collected in an
ordered operation list.  Concurrency is modelled by an interleaving
step relation (image loading) and by per-iteration snapshots of the
shared state taken at the points where the source holds the activation
lock (the cross-reference wait loop).
-/

/-! ## String utilities (models of Go strings/strconv primitives) -/

/-- Model of Go strings.Index for a single byte: index of the first
occurrence of the character, or -1 when absent. -/
def firstIndexOf (c : Char) : List Char → Int
  | [] => -1
  | x :: xs =>
    if x = c then 0
    else
      let r := firstIndexOf c xs
      if r ≥ 0 then r + 1 else -1

/-- Model of Go strings.LastIndex for a single byte: index of the last
occurrence of the character, or -1 when absent. -/
def lastIndexOf (c : Char) : List Char → Int
  | [] => -1
  | x :: xs =>
    let r := lastIndexOf c xs
    if r ≥ 0 then r + 1
    else if x = c then 0 else -1

/-- Go slice text[a:b] on a character list. -/
def listSlice (l : List Char) (a b : Nat) : List Char :=
  (l.drop a).take (b - a)

/-- Numeric value of a list of decimal digit characters. -/
def digitsVal (l : List Char) : Nat :=
  l.foldl (fun acc c => acc * 10 + (c.toNat - 48)) 0

/-- Model of Go strconv.Atoi: an optional sign followed by one or more
decimal digits (the int64 overflow failure of the Go function is not
modelled; the inputs quantified over here stay far below it). -/
def goAtoi (s : String) : Option Int :=
  match s.data with
  | [] => none
  | '+' :: rest =>
    if rest ≠ [] ∧ rest.all Char.isDigit then some (digitsVal rest) else none
  | '-' :: rest =>
    if rest ≠ [] ∧ rest.all Char.isDigit then some (-(digitsVal rest : Int)) else none
  | l =>
    if l.all Char.isDigit then some (digitsVal l) else none

/-! ## Text substitution (CloudState.Substitute, cloudenv.go)

The reference pattern is the POSIX regular expression matching a percent
sign, an opening parenthesis, one or more characters that are not
parentheses, and a closing parenthesis.  findRefs returns the start/end
index pairs of all matches, in order, exactly as the Go FindAllStringIndex
call does (end is the index one past the match).  Successive candidates
are rescanned from two characters past a failed or matched opening
delimiter; this is equivalent to the regex engine behaviour because no
match can begin at an opening parenthesis or inside a matched name
(a name contains no parenthesis, so no percent sign in it is followed
by an opening parenthesis). -/

/-- Consume the longest prefix of characters that are not parentheses;
returns its length and the remaining suffix. -/
def takeName : List Char → Nat × List Char
  | [] => (0, [])
  | c :: rest =>
    if c = '(' ∨ c = ')' then (0, c :: rest)
    else
      let r := takeName rest
      (r.1 + 1, r.2)

/-- All matches of the reference pattern in the list starting at absolute
position p, as [start, end) index pairs. -/
def findRefs : List Char → Nat → List (Nat × Nat)
  | [], _ => []
  | '%' :: '(' :: rest, p =>
    let t := takeName rest
    match t.2 with
    | ')' :: _ =>
      if t.1 > 0 then (p, p + t.1 + 3) :: findRefs rest (p + 2)
      else findRefs rest (p + 2)
    | _ => findRefs rest (p + 2)
  | _ :: rest, p => findRefs rest (p + 1)

/-- The accumulation loop of CloudState.Substitute: for each match
[start, end), the text from curpos up to start is kept, the resolved
value (or nothing) is inserted, and curpos becomes end + 1; the tail from
curpos is appended at the end.  Traced from cloudenv.go lines 494-513. -/
def applyRefs (chars : List Char) (lookup : String → Option String) :
    List (Nat × Nat) → Nat → List Char
  | [], curpos => if curpos < chars.length then chars.drop curpos else []
  | (s, e) :: rest, curpos =>
    let pre := if curpos < s then listSlice chars curpos s else []
    let name := String.mk (listSlice chars (s + 2) (e - 1))
    let value :=
      match lookup name with
      | some v => v.data
      | none => []
    pre ++ value ++ applyRefs chars lookup rest (e + 1)

/-- Model of CloudState.Substitute; the variable repository and resolution
context are abstracted into the lookup function. -/
def substituteM (lookup : String → Option String) (text : String) : String :=
  String.mk (applyRefs text.data lookup (findRefs text.data 0) 0)

/-! ## Path handling (models of Go path.Clean / path.Join / path.IsAbs)

Used by the volume-mapping step of NodeState.run (cloudenv.go lines
619-632).  path.Clean is modelled by its component semantics: split on
slashes, drop empty and dot components, let a dotdot component pop the
last real component (it is kept when nothing can be popped and the path
is not rooted, and dropped when the path is rooted). -/

/-- Split a character list into slash-separated components (the
accumulator holds the current component reversed). -/
def splitSlashGo : List Char → List Char → List (List Char)
  | [], acc => [acc.reverse]
  | '/' :: rest, acc => acc.reverse :: splitSlashGo rest []
  | c :: rest, acc => splitSlashGo rest (c :: acc)

/-- The component stack of path.Clean: empty and dot components are
dropped; a dotdot pops the previous component unless it is itself a kept
dotdot, and is dropped at the root of a rooted path. -/
def cleanComps (rooted : Bool) : List (List Char) → List (List Char) → List (List Char)
  | stack, [] => stack.reverse
  | stack, c :: rest =>
    if c = [] ∨ c = ['.'] then cleanComps rooted stack rest
    else if c = ['.', '.'] then
      match stack with
      | [] =>
        if rooted then cleanComps rooted [] rest
        else cleanComps rooted [['.', '.']] rest
      | top :: stack2 =>
        if top = ['.', '.'] then cleanComps rooted (c :: top :: stack2) rest
        else cleanComps rooted stack2 rest
    else cleanComps rooted (c :: stack) rest

/-- Join components with slashes. -/
def joinComps : List (List Char) → List Char
  | [] => []
  | [c] => c
  | c :: rest => c ++ '/' :: joinComps rest

/-- Model of Go path.Clean. -/
def pathClean (s : String) : String :=
  match s.data with
  | [] => "."
  | l =>
    let rooted : Bool := match l with | '/' :: _ => true | _ => false
    let comps := cleanComps rooted [] (splitSlashGo l [])
    let body := joinComps comps
    if body = [] then (if rooted then "/" else ".")
    else String.mk (if rooted then '/' :: body else body)

/-- Model of Go path.IsAbs. -/
def pathIsAbs (s : String) : Bool :=
  match s.data with
  | '/' :: _ => true
  | _ => false

/-- Model of Go path.Join on two elements: empty elements are skipped and
the slash-joined rest is cleaned. -/
def pathJoin (a b : String) : String :=
  if a = "" then (if b = "" then "" else pathClean b)
  else pathClean (a ++ "/" ++ b)

/-! ## Volume mapping (NodeState.run, cloudenv.go lines 619-632) -/

/-- One volume mapping after macro substitution: when a colon occurs at a
positive index, the part before it is the source and the rest is the
destination; a relative source is replaced by the cleaned join of the
data directory and the source.  Traced from cloudenv.go lines 620-628. -/
def volumeMapArg (dataDir volMap : String) : String :=
  let pos := firstIndexOf ':' volMap.data
  if pos > 0 then
    let src := String.mk (volMap.data.take pos.toNat)
    let dst := String.mk (volMap.data.drop (pos.toNat + 1))
    let src2 := if pathIsAbs src then src else pathClean (pathJoin dataDir src)
    src2 ++ ":" ++ dst
  else volMap

/-- The docker arguments contributed by the declared volume list: each
substituted mapping is appended behind a -v flag (cloudenv.go lines
619-632). -/
def nodeVolumeArgs (lookup : String → Option String) (dataDir : String)
    (vols : List String) : List String :=
  vols.flatMap (fun v => ["-v", volumeMapArg dataDir (substituteM lookup v)])

/-! ## Cross-reference variable provider (cluster.go xref part)

The target node or instance state is observed through snapshots: the
wait loop of queryNode / queryInstance re-reads the Stopped flag and the
local variable repository on every iteration while holding the shared
activation lock, so iteration i of the loop sees snapshot i of the
target.  Snapshot 0 is the lock-free check performed before the loop.
Whether the target is the requester itself (the pointer comparisons
with ctx.Node / ctx.Instance in the source) is carried as a flag on the
target.  The fuel argument bounds how many loop iterations are modelled;
a none result means the caller would still be blocked on the condition
variable after that many wakeups. -/

/-- One observation of a target: its Stopped flag and its local
variable repository. -/
structure Snap where
  stopped : Bool
  vars : String → Option String

/-- An instance as seen by the xref provider: its snapshot stream and
whether it is the requesting instance itself. -/
structure InstT where
  snaps : Nat → Snap
  isSelf : Bool

/-- A node as seen by the xref provider: its name, its own snapshot
stream, whether it is the requesting node itself, and its instances. -/
structure NodeT where
  name : String
  nsnaps : Nat → Snap
  nodeIsSelf : Bool
  insts : List InstT

/-- The wait loop shared by queryNode and queryInstance (cluster.go
lines 230-237 and 261-268): exit with not-found as soon as the target
is observed stopped, exit with the value as soon as the key is observed
published, otherwise wait and re-check on the next snapshot. -/
def xrefWait (snaps : Nat → Snap) (key : String) : Nat → Nat → Option (String × Bool)
  | _, 0 => none
  | i, fuel + 1 =>
    if (snaps i).stopped then some ("", false)
    else
      match (snaps i).vars key with
      | some v => some (v, true)
      | none => xrefWait snaps key (i + 1) fuel

/-- Model of findNode (cluster.go lines 272-279): first node with the
given template name. -/
def findNodeT : List NodeT → String → Option NodeT
  | [], _ => none
  | n :: rest, nm => if n.name = nm then some n else findNodeT rest nm

/-- The reference parse of queryInstance (cluster.go lines 242-245):
split on the last dash, which must sit at a positive index. -/
def refSplit (ref : String) : Option (String × String) :=
  let pos := lastIndexOf '-' ref.data
  if pos ≤ 0 then none
  else some (String.mk (ref.data.take pos.toNat), String.mk (ref.data.drop (pos.toNat + 1)))

/-- Target resolution of queryInstance (cluster.go lines 242-255): parse
the reference, look up the node, parse the index, and check it against
the instance range; any failure resolves to none. -/
def resolveInstance (nodes : List NodeT) (ref : String) : Option InstT :=
  match refSplit ref with
  | none => none
  | some (nodeName, idxStr) =>
    match findNodeT nodes nodeName with
    | none => none
    | some ns =>
      match goAtoi idxStr with
      | none => none
      | some idx =>
        if idx < 0 ∨ (ns.insts.length : Int) ≤ idx then none
        else ns.insts[idx.toNat]?

/-- Model of queryInstance (cluster.go lines 241-270): failed resolution
reports not-found; otherwise the key is tried once without the lock,
the requester itself is never waited on, and otherwise the wait loop
runs from snapshot 1. -/
def queryInstanceM (nodes : List NodeT) (ref key : String) (fuel : Nat) :
    Option (String × Bool) :=
  match resolveInstance nodes ref with
  | none => some ("", false)
  | some tr =>
    match (tr.snaps 0).vars key with
    | some v => some (v, true)
    | none =>
      if tr.isSelf then some ("", false)
      else xrefWait tr.snaps key 1 fuel

/-- Model of queryNode (cluster.go lines 220-239), used by the
instances: prefix. -/
def queryNodeM (nodes : List NodeT) (ref key : String) (fuel : Nat) :
    Option (String × Bool) :=
  match findNodeT nodes ref with
  | none => some ("", false)
  | some ns =>
    match (ns.nsnaps 0).vars key with
    | some v => some (v, true)
    | none =>
      if ns.nodeIsSelf then some ("", false)
      else xrefWait ns.nsnaps key 1 fuel

/-- Model of providerXref.QueryVar (cluster.go lines 198-214): split the
requested name at the first colon and dispatch on the prefix. -/
def providerXrefQuery (nodes : List NodeT) (name : String) (fuel : Nat) :
    Option (String × Bool) :=
  let pos := firstIndexOf ':' name.data
  if pos ≤ 0 then some ("", false)
  else
    let key := String.mk (name.data.take pos.toNat)
    let ref := String.mk (name.data.drop (pos.toNat + 1))
    if key = "instances" then queryNodeM nodes ref key fuel
    else if key = "ip" ∨ key = "mac" then queryInstanceM nodes ref key fuel
    else some ("", false)

/-! ## Image load deduplication (CloudState.LoadImage, cloudenv.go 472-490)

LoadImage is modelled as an interleaving transition system over the
tasks that call it.  The mutex serialises the map check-and-insert, so
entering is one atomic step: a task that finds no entry for its image
inserts an incomplete one and becomes the puller; a task that finds an
entry starts waiting on the condition variable.  The puller performs the
driver pull, records the result in the entry, marks it complete and
broadcasts (ImageLoader.Load plus the store and Notify of LoadImage,
lines 485-487) - one step, since no other task reads the entry fields
before observing the completion flag.  A waiter whose entry is observed
complete returns the shared recorded result.  The outcome of the single
driver pull for an image is the oracle function pull. -/

/-- An ImageLoader entry: the completion flag and the recorded pull
result (none models a nil error). -/
structure ILEntry where
  complete : Bool
  error : Option String
deriving DecidableEq

/-- Program counter of one LoadImage caller. -/
inductive LPC where
  | start : LPC
  | pulling : LPC
  | waiting : LPC
  | done : Option String → LPC
deriving DecidableEq

/-- One LoadImage caller: the image it requests and its position in the
call. -/
structure LTask where
  image : String
  pc : LPC
deriving DecidableEq

/-- Shared state of an activation, as LoadImage sees it: the image map,
a ghost count of driver pulls per image, and the caller tasks. -/
structure LState where
  images : String → Option ILEntry
  pullCount : String → Nat
  tasks : List LTask

/-- Number of tasks currently performing the pull for an image. -/
def pullers (nm : String) (ts : List LTask) : Nat :=
  ts.countP (fun t => decide (t.image = nm) && decide (t.pc = LPC.pulling))

/-- Interleaving steps of concurrent LoadImage callers. -/
inductive LStep (pull : String → Option String) : LState → LState → Prop
  | enterNew (s s2 : LState) (pre post : List LTask) (nm : String)
      (ht : s.tasks = pre ++ LTask.mk nm LPC.start :: post)
      (himg : s.images nm = none)
      (ht2 : s2.tasks = pre ++ LTask.mk nm LPC.pulling :: post)
      (himg2 : ∀ m, s2.images m = if m = nm then some (ILEntry.mk false none) else s.images m)
      (hc2 : ∀ m, s2.pullCount m = s.pullCount m) :
      LStep pull s s2
  | enterWait (s s2 : LState) (pre post : List LTask) (nm : String) (e : ILEntry)
      (ht : s.tasks = pre ++ LTask.mk nm LPC.start :: post)
      (himg : s.images nm = some e)
      (ht2 : s2.tasks = pre ++ LTask.mk nm LPC.waiting :: post)
      (himg2 : ∀ m, s2.images m = s.images m)
      (hc2 : ∀ m, s2.pullCount m = s.pullCount m) :
      LStep pull s s2
  | doPull (s s2 : LState) (pre post : List LTask) (nm : String)
      (ht : s.tasks = pre ++ LTask.mk nm LPC.pulling :: post)
      (ht2 : s2.tasks = pre ++ LTask.mk nm (LPC.done (pull nm)) :: post)
      (himg2 : ∀ m, s2.images m = if m = nm then some (ILEntry.mk true (pull nm)) else s.images m)
      (hc2 : ∀ m, s2.pullCount m = if m = nm then s.pullCount m + 1 else s.pullCount m) :
      LStep pull s s2
  | finishWait (s s2 : LState) (pre post : List LTask) (nm : String) (e : ILEntry)
      (ht : s.tasks = pre ++ LTask.mk nm LPC.waiting :: post)
      (himg : s.images nm = some e) (hcom : e.complete = true)
      (ht2 : s2.tasks = pre ++ LTask.mk nm (LPC.done e.error) :: post)
      (himg2 : ∀ m, s2.images m = s.images m)
      (hc2 : ∀ m, s2.pullCount m = s.pullCount m) :
      LStep pull s s2

/-- Initial state of an activation: empty image map, no pulls yet, every
caller at the start of LoadImage. -/
def initLState (names : List String) : LState :=
  { images := fun _ => none
    pullCount := fun _ => 0
    tasks := names.map (fun nm => LTask.mk nm LPC.start) }

/-- States reachable by interleaving the callers. -/
inductive LReach (pull : String → Option String) (names : List String) : LState → Prop
  | init : LReach pull names (initLState names)
  | step (s s2 : LState) : LReach pull names s → LStep pull s s2 → LReach pull names s2

/-- The LoadImage invariant: per image, the entry state determines the
pull count and the number of active pullers, and every finished caller
holds the recorded shared result of a completed entry. -/
def LInv (pull : String → Option String) (s : LState) : Prop :=
  (∀ nm, s.images nm = none → s.pullCount nm = 0 ∧ pullers nm s.tasks = 0) ∧
  (∀ nm e, s.images nm = some e → e.complete = false →
    s.pullCount nm = 0 ∧ pullers nm s.tasks = 1) ∧
  (∀ nm e, s.images nm = some e → e.complete = true →
    e.error = pull nm ∧ s.pullCount nm = 1 ∧ pullers nm s.tasks = 0) ∧
  (∀ t, t ∈ s.tasks → ∀ r, t.pc = LPC.done r →
    ∃ e, s.images t.image = some e ∧ e.complete = true ∧ r = pull t.image)

/-! ## Container driver operations (docker.go)

The side effects a driver function issues are collected in order in a
list of operations; the engine and filesystem responses it consumes are
oracle fields of a world structure. -/

/-- Engine and filesystem operations issued by the driver. -/
inductive DOp where
  | stopC : String → DOp
  | removeFile : String → DOp
  | execCreate : List String → DOp
  | rmForceC : String → DOp
  | writeFile : String → String → DOp
deriving DecidableEq

/-- The argument vector of the engine create call before continuity
handling (docker.go lines 275-278). -/
def createBaseArgs (cidfile : String) (args : List String) : List String :=
  "create" :: ("--cidfile=" ++ cidfile) :: args

/-- World consumed by docker.Create: the marker file content (none when
unreadable), the inspect answer per container id (none when inspect
fails), whether removing the marker file fails with a real error, and
the engine create outcome per argument vector. -/
structure CreateWorld where
  cidfileContent : Option String
  running : String → Option Bool
  removeCidfileFails : Bool
  createOut : List String → Except String String

/-- Model of docker.Create (docker.go lines 274-311): read the prior
marker file; when it names a container whose inspect succeeds, stop it
if running and request volume continuity from it (an inspect failure
forgets the prior id); remove the marker file; run the engine create;
afterwards force-remove the prior container on success or write its id
back to the marker file on failure. -/
def dockerCreate (w : CreateWorld) (cidfile : String) (args : List String) :
    Except String String × List DOp :=
  let cmdArgs0 := createBaseArgs cidfile args
  let cid0 := w.cidfileContent.getD ""
  let tri : String × List String × List DOp :=
    if cid0 = "" then (cid0, cmdArgs0, [])
    else
      match w.running cid0 with
      | some r =>
        (cid0, cmdArgs0 ++ ["--volumes-from=" ++ cid0],
         if r then [DOp.stopC cid0] else [])
      | none => ("", cmdArgs0, [])
  let cid := tri.1
  let cmdArgs := tri.2.1
  let ops0 := tri.2.2
  if w.removeCidfileFails then (Except.error "remove cidfile failed", ops0)
  else
    let ops1 := ops0 ++ [DOp.removeFile cidfile]
    match w.createOut cmdArgs with
    | Except.ok newCid =>
      (Except.ok newCid,
       ops1 ++ [DOp.execCreate cmdArgs] ++ (if cid = "" then [] else [DOp.rmForceC cid]))
    | Except.error e =>
      (Except.error e,
       ops1 ++ [DOp.execCreate cmdArgs] ++ (if cid = "" then [] else [DOp.writeFile cidfile cid]))

/-! ## Container start confirmation (docker.go lines 313-341) -/

/-- The confirmation loop of docker.Start in attached mode, with the
number of remaining attempts counted down from 8: each attempt inspects
the running state (the inspect oracle gives none on an inspect error);
a confirmed running container ends the loop, otherwise the loop sleeps
(i+1)*100 milliseconds after attempt i - the recorded delay list - and
exhausting the attempts yields the start-timeout error. -/
def startPollGo (inspect : Nat → Option Bool) : Nat → Nat → Except String Unit × List Nat
  | _, 0 => (Except.error "Start timeout", [])
  | i, fuel + 1 =>
    match inspect i with
    | some true => (Except.ok (), [])
    | _ =>
      let r := startPollGo inspect (i + 1) fuel
      (r.1, (i + 1) * 100 :: r.2)

/-- The 8-attempt confirmation poll started after the attached start is
issued (docker.go lines 333-339). -/
def startPoll (inspect : Nat → Option Bool) : Except String Unit × List Nat :=
  startPollGo inspect 0 8

/-- Model of docker.Start: without a wait group the start command is run
synchronously and its outcome returned; with a wait group the command is
launched (launch failure is returned as-is) and the confirmation poll
decides the result.  runRes and launchRes are the oracle outcomes of
the two process invocations. -/
def dockerStart (wgPresent : Bool) (runRes launchRes : Except String Unit)
    (inspect : Nat → Option Bool) : Except String Unit × List Nat :=
  if wgPresent = false then (runRes, [])
  else
    match launchRes with
    | Except.error e => (Except.error e, [])
    | Except.ok _ => startPoll inspect

/-- Model of InstanceState.remove (cloudenv.go lines 791-802): a
non-empty container id is force-removed and its marker file deleted. -/
def removeModel (cid cidfile : String) : List DOp :=
  if cid = "" then []
  else DOp.rmForceC cid :: (if cidfile = "" then [] else [DOp.removeFile cidfile])

/-- The start step of InstanceState.run (cloudenv.go lines 703-711):
detached instances start without a wait group, attached ones with it;
a start failure removes the just-created container before the error is
returned. -/
def instanceStartPhase (detach : Bool) (cid cidfile : String)
    (runRes launchRes : Except String Unit) (inspect : Nat → Option Bool) :
    Except String Unit × List DOp :=
  let r :=
    if detach then dockerStart false runRes launchRes inspect
    else dockerStart true runRes launchRes inspect
  match r.1 with
  | Except.error e => (Except.error e, removeModel cid cidfile)
  | Except.ok _ => (Except.ok (), [])

/-! ## Node lifecycle and error aggregation (cloudenv.go)

NodeState.run can fail before its instance tasks are launched in exactly
two places: creating the state directory and loading the image (argument
building, substitution and the prepare hook cannot fail).  After the
instances are launched it always returns nil; each instance records its
own error.  CloudEnv.Run stores the returned error as the node error. -/

/-- A node state as the error aggregation sees it: the node error and
the per-instance errors. -/
structure NodeStateM where
  error : Option String
  instErrors : List (Option String)
deriving DecidableEq

/-- World of one NodeState.run call: the state directory error, the
image load result, and the outcome of each instance task. -/
structure NodeRunWorld where
  mkdirError : Option String
  loadError : Option String
  instError : Nat → Option String

/-- Model of NodeState.run (cloudenv.go lines 588-660) as recorded by
the node task of CloudEnv.Run (lines 574-583): the resulting node state
and whether the instance tasks were launched. -/
def nodeRunModel (w : NodeRunWorld) (n : Nat) : NodeStateM × Bool :=
  match w.mkdirError with
  | some e => (NodeStateM.mk (some e) (List.replicate n none), false)
  | none =>
    match w.loadError with
    | some e => (NodeStateM.mk (some e) (List.replicate n none), false)
    | none => (NodeStateM.mk none ((List.range n).map w.instError), true)

/-- Model of NodeState.AnyError (cloudenv.go lines 667-674). -/
def instancesAnyError : List (Option String) → Bool
  | [] => false
  | e :: rest => if e.isSome then true else instancesAnyError rest

/-- Model of CloudState.AnyError (cloudenv.go lines 515-522). -/
def cloudAnyError : List NodeStateM → Bool
  | [] => false
  | ns :: rest =>
    if ns.error.isSome || instancesAnyError ns.instErrors then true
    else cloudAnyError rest

/-- The node states produced by one activation run, one per node world
(CloudEnv.Run, cloudenv.go lines 574-584). -/
def cloudRunModel (ws : List (NodeRunWorld × Nat)) : List NodeStateM :=
  ws.map (fun p => (nodeRunModel p.1 p.2).1)

/-! ## Concrete instances used by the witnesses -/

/-- A target snapshot stream that never publishes anything and stops at
time 1. -/
def snapW : Nat → Snap := fun i => Snap.mk (decide (1 ≤ i)) (fun _ => none)

/-- A single-node, single-instance cluster view for the xref provider. -/
def nodeW : NodeT := NodeT.mk "db" snapW false [InstT.mk snapW false]

/-- The node list seen by the xref provider in the witnesses. -/
def nodesW : List NodeT := [nodeW]

/-- Final state of a two-caller LoadImage interleaving on one image. -/
def c1FinalState : LState :=
  { images := fun m => if m = "img" then some (ILEntry.mk true none) else none
    pullCount := fun m => if m = "img" then 1 else 0
    tasks := [LTask.mk "img" (LPC.done none), LTask.mk "img" (LPC.done none)] }

/-- A create world whose marker file names a running container and whose
engine create succeeds. -/
def createWorldW : CreateWorld :=
  CreateWorld.mk (some "old") (fun c => if c = "old" then some true else none) false
    (fun _ => Except.ok "new")

/-- A create world whose marker file names a running container and whose
engine create fails. -/
def createWorldFailW : CreateWorld :=
  CreateWorld.mk (some "old") (fun c => if c = "old" then some true else none) false
    (fun _ => Except.error "boom")

/-! ## Theorems -/

/-- C10: on an input without any reference match, Substitute returns the
string unchanged. -/
theorem substitute_identity_no_refs (lookup : String → Option String) (text : String)
    (h : findRefs text.data 0 = []) : substituteM lookup text = text := by
  unfold substituteM
  rw [h]
  cases text with
  | mk data =>
    cases data with
    | nil => rfl
    | cons c cs => simp [applyRefs]

/-- Witness for C10 at a concrete macro-free string. -/
theorem substitute_identity_no_refs_witness :
    substituteM (fun _ => none) "plain text" = "plain text" :=
  substitute_identity_no_refs (fun _ => none) "plain text" (by decide)

/-- C3: refuted as stated.  Substitute advances the cursor to one past
the match end (curpos = end + 1, cloudenv.go line 503), so the character
immediately following every reference is dropped: at the failing input
a%(x)b with x unresolved the code yields a instead of the claimed ab,
and with x resolved to V it yields aV instead of the claimed aVb. -/
theorem substitute_drops_char_after_reference :
    substituteM (fun _ => none) "a%(x)b" = "a" ∧
    substituteM (fun _ => none) "a%(x)b" ≠ "ab" ∧
    substituteM (fun n => if n = "x" then some "V" else none) "a%(x)b" = "aV" :=
  ⟨by decide, by decide, by decide⟩

theorem instancesAnyError_eq_any (l : List (Option String)) :
    instancesAnyError l = l.any Option.isSome := by
  induction l with
  | nil => rfl
  | cons e rest ih =>
    by_cases h : e.isSome <;> simp [instancesAnyError, h, ih]

theorem cloudAnyError_eq_any (nodes : List NodeStateM) :
    cloudAnyError nodes =
      nodes.any (fun ns => ns.error.isSome || instancesAnyError ns.instErrors) := by
  induction nodes with
  | nil => rfl
  | cons ns rest ih =>
    by_cases h : ns.error.isSome || instancesAnyError ns.instErrors <;>
      simp_all [cloudAnyError, h, ih]

/-- C8: AnyError is true exactly when some node error or some instance
error anywhere in the tree is non-nil. -/
theorem anyError_iff_some_error (nodes : List NodeStateM) :
    cloudAnyError nodes = true ↔
      ∃ ns ∈ nodes, ns.error ≠ none ∨ ∃ e ∈ ns.instErrors, e ≠ none := by
  simp [cloudAnyError_eq_any, instancesAnyError_eq_any, List.any_eq_true,
    Option.isSome_iff_ne_none]

/-- C6: a node whose image load fails records that error as the node
error and launches no instance task (all instance errors stay nil); an
instance error leaves the node error nil, leaves every sibling outcome
its own, and is visible through AnyError walking the instances. -/
theorem node_error_isolation (w : NodeRunWorld) (n : Nat) (e : String)
    (hmk : w.mkdirError = none) :
    (w.loadError = some e →
      nodeRunModel w n = (NodeStateM.mk (some e) (List.replicate n none), false)) ∧
    (w.loadError = none →
      nodeRunModel w n = (NodeStateM.mk none ((List.range n).map w.instError), true) ∧
      ∀ j, j < n → ((nodeRunModel w n).1.instErrors)[j]? = some (w.instError j)) ∧
    (w.loadError = none → ∀ j, j < n → w.instError j ≠ none →
      (nodeRunModel w n).1.error = none ∧
      instancesAnyError (nodeRunModel w n).1.instErrors = true ∧
      cloudAnyError (cloudRunModel [(w, n)]) = true) := by
  refine ⟨fun hl => by simp [nodeRunModel, hmk, hl], fun hl => ?_, fun hl j hj hne => ?_⟩
  · refine ⟨by simp [nodeRunModel, hmk, hl], fun j hj => ?_⟩
    simp [nodeRunModel, hmk, hl, List.getElem?_map, List.getElem?_range, hj]
  · have hany : instancesAnyError (nodeRunModel w n).1.instErrors = true := by
      rw [instancesAnyError_eq_any]
      simp only [nodeRunModel, hmk, hl]
      exact List.any_eq_true.mpr
        ⟨w.instError j, List.mem_map_of_mem _ (List.mem_range.mpr hj),
         Option.isSome_iff_ne_none.mpr hne⟩
    refine ⟨by simp [nodeRunModel, hmk, hl], hany, ?_⟩
    simp [cloudRunModel, cloudAnyError, hany]

/-- Witness for C6: image-load failure recorded with no instances
launched, and an instance error visible through AnyError while the node
error stays nil. -/
theorem node_error_isolation_witness :
    nodeRunModel (NodeRunWorld.mk none (some "pull failed") (fun _ => none)) 2 =
      (NodeStateM.mk (some "pull failed") (List.replicate 2 none), false) ∧
    (nodeRunModel (NodeRunWorld.mk none none (fun j => if j = 0 then some "boom" else none)) 2).1.error
      = none ∧
    cloudAnyError (cloudRunModel
      [(NodeRunWorld.mk none none (fun j => if j = 0 then some "boom" else none), 2)]) = true := by
  have h1 := (node_error_isolation (NodeRunWorld.mk none (some "pull failed") (fun _ => none))
    2 "pull failed" rfl).1 rfl
  have h2 := (node_error_isolation (NodeRunWorld.mk none none
    (fun j => if j = 0 then some "boom" else none)) 2 "unused" rfl).2.2 rfl 0 (by decide) (by decide)
  exact ⟨h1, h2.1, h2.2.2⟩

theorem firstIndexOf_cases (c : Char) (l : List Char) :
    firstIndexOf c l = -1 ∨ 0 ≤ firstIndexOf c l := by
  induction l with
  | nil => exact Or.inl rfl
  | cons x xs ih =>
    simp only [firstIndexOf]
    by_cases hx : x = c
    · simp [hx]
    · simp only [hx, if_false]
      rcases ih with h | h
      · simp [h]
      · rw [if_pos h]; omega

theorem firstIndexOf_append (c : Char) (l1 l2 : List Char)
    (h : firstIndexOf c l1 = -1) :
    firstIndexOf c (l1 ++ c :: l2) = (l1.length : Int) := by
  induction l1 with
  | nil => simp [firstIndexOf]
  | cons x xs ih =>
    have hx : ¬(x = c) := by
      intro hxc
      rw [firstIndexOf, if_pos hxc] at h
      exact absurd h (by decide)
    have hxs : firstIndexOf c xs = -1 := by
      rw [firstIndexOf, if_neg hx] at h
      rcases firstIndexOf_cases c xs with h2 | h2
      · exact h2
      · rw [if_pos h2] at h; omega
    rw [List.cons_append, firstIndexOf, if_neg hx]
    simp only [ih hxs]
    rw [if_pos (by positivity)]
    simp only [List.length_cons]
    push_cast
    omega

/-- C9: a relative volume source is rewritten to the cleaned join of the
data directory and the source, an absolute source passes through
unchanged, and the mapping is emitted behind a -v flag; including the
two concrete examples of the specification. -/
theorem volume_source_rewrite (dataDir src dst : String)
    (hsrc : src ≠ "") (hcolon : firstIndexOf ':' src.data = -1) :
    volumeMapArg dataDir (src ++ ":" ++ dst) =
      (if pathIsAbs src then src else pathClean (pathJoin dataDir src)) ++ ":" ++ dst ∧
    volumeMapArg "/srv/cluster1" "data:/app/data" = "/srv/cluster1/data:/app/data" ∧
    volumeMapArg "/srv/cluster1" "/abs/path:/app/data" = "/abs/path:/app/data" ∧
    nodeVolumeArgs (fun _ => none) "/srv/cluster1" ["data:/app/data"] =
      ["-v", "/srv/cluster1/data:/app/data"] := by
  refine ⟨?_, by decide, by decide, by decide⟩
  have hdata : (src ++ ":" ++ dst).data = src.data ++ ':' :: dst.data := by
    rw [String.data_append, String.data_append]
    rw [show (":" : String).data = [':'] by decide]
    simp
  have hnil : src.data ≠ [] := by
    intro h
    apply hsrc
    cases src with
    | mk d => simp_all
  have hlen : 0 < src.data.length := List.length_pos.mpr hnil
  have hpos : firstIndexOf ':' (src ++ ":" ++ dst).data = (src.data.length : Int) := by
    rw [hdata]
    exact firstIndexOf_append ':' src.data dst.data hcolon
  unfold volumeMapArg
  rw [hpos, if_pos (by exact_mod_cast hlen), hdata]
  rw [Int.toNat_natCast]
  rw [List.take_left]
  have hdrop : (src.data ++ ':' :: dst.data).drop (src.data.length + 1) = dst.data := by
    rw [show src.data ++ ':' :: dst.data = (src.data ++ [':']) ++ dst.data by simp]
    rw [show src.data.length + 1 = (src.data ++ [':']).length by simp]
    exact List.drop_left _ _
  rw [hdrop]

/-- Witness for C9: the relative example with a colon-free non-empty
source, through the general statement. -/
theorem volume_source_rewrite_witness :
    volumeMapArg "/srv/cluster1" ("data" ++ ":" ++ "/app/data") =
      (if pathIsAbs "data" then "data"
       else pathClean (pathJoin "/srv/cluster1" "data")) ++ ":" ++ "/app/data" :=
  (volume_source_rewrite "/srv/cluster1" "data" "/app/data" (by decide) (by decide)).1

theorem xrefWait_stopped (snaps : Nat → Snap) (key : String) (N : Nat)
    (hnever : ∀ i, (snaps i).vars key = none)
    (hstop : (snaps N).stopped = true) :
    ∀ fuel i, i ≤ N → N < i + fuel → xrefWait snaps key i fuel = some ("", false) := by
  intro fuel
  induction fuel with
  | zero => intro i h1 h2; omega
  | succ f ih =>
    intro i h1 h2
    by_cases hs : (snaps i).stopped = true
    · simp [xrefWait, hs]
    · have hne : i ≠ N := fun he => hs (he ▸ hstop)
      simp only [xrefWait, hnever i, if_neg hs]
      exact ih (i + 1) (by omega) (by omega)

/-- C2: a cross-reference lookup for a key the target never publishes
returns not-found once the target's stopped flag is set: with the target
stopped from snapshot N on (N at least 1), N loop iterations suffice and
the lookup reports not-found rather than an error, for both the
instance-level (ip:/mac:) and the node-level (instances:) lookup. -/
theorem xref_stopped_target_notfound (nodes : List NodeT) (ref key : String) (N fuel : Nat)
    (hN : 1 ≤ N) (hfuel : N ≤ fuel) :
    (∀ tr, resolveInstance nodes ref = some tr → tr.isSelf = false →
      (∀ i, (tr.snaps i).vars key = none) → (tr.snaps N).stopped = true →
      queryInstanceM nodes ref key fuel = some ("", false)) ∧
    (∀ ns, findNodeT nodes ref = some ns → ns.nodeIsSelf = false →
      (∀ i, (ns.nsnaps i).vars key = none) → (ns.nsnaps N).stopped = true →
      queryNodeM nodes ref key fuel = some ("", false)) := by
  constructor
  · intro tr hres hself hnever hstop
    simp only [queryInstanceM, hres, hnever 0, hself, Bool.false_eq_true, if_false]
    exact xrefWait_stopped tr.snaps key N hnever hstop fuel 1 hN (by omega)
  · intro ns hres hself hnever hstop
    simp only [queryNodeM, hres, hnever 0, hself, Bool.false_eq_true, if_false]
    exact xrefWait_stopped ns.nsnaps key N hnever hstop fuel 1 hN (by omega)

/-- Witness for C2: the instance and the node of the witness cluster
stop at snapshot 1 and never publish anything; one wakeup returns
not-found. -/
theorem xref_stopped_target_notfound_witness :
    queryInstanceM nodesW "db-0" "ip" 1 = some ("", false) ∧
    queryNodeM nodesW "db" "instances" 1 = some ("", false) := by
  constructor
  · exact (xref_stopped_target_notfound nodesW "db-0" "ip" 1 1 le_rfl le_rfl).1
      (InstT.mk snapW false) rfl rfl (fun i => rfl) (by decide)
  · exact (xref_stopped_target_notfound nodesW "db" "instances" 1 1 le_rfl le_rfl).2
      nodeW rfl rfl (fun i => rfl) (by decide)

/-- C7: every malformed ip:/mac:/instances: reference - no usable dash
separator, unknown node name, non-numeric index, or index outside the
target's instance range - resolves to not-found without an error and
without ever reaching the wait loop (the result holds for every fuel,
including zero wakeups). -/
theorem xref_malformed_notfound (nodes : List NodeT) (ref key : String) (fuel : Nat) :
    (refSplit ref = none → queryInstanceM nodes ref key fuel = some ("", false)) ∧
    (∀ nodeName idxStr, refSplit ref = some (nodeName, idxStr) →
      (findNodeT nodes nodeName = none →
        queryInstanceM nodes ref key fuel = some ("", false)) ∧
      (goAtoi idxStr = none → queryInstanceM nodes ref key fuel = some ("", false)) ∧
      (∀ ns idx, findNodeT nodes nodeName = some ns → goAtoi idxStr = some idx →
        (idx < 0 ∨ (ns.insts.length : Int) ≤ idx) →
        queryInstanceM nodes ref key fuel = some ("", false))) ∧
    (findNodeT nodes ref = none → queryNodeM nodes ref key fuel = some ("", false)) := by
  refine ⟨fun h => ?_,
    fun nodeName idxStr h =>
      ⟨fun h2 => ?_, fun h2 => ?_, fun ns idx h2 h3 h4 => ?_⟩,
    fun h => ?_⟩
  · simp [queryInstanceM, resolveInstance, h]
  · simp [queryInstanceM, resolveInstance, h, h2]
  · rcases hf : findNodeT nodes nodeName with _ | ns <;>
      simp [queryInstanceM, resolveInstance, h, hf, h2]
  · simp only [queryInstanceM, resolveInstance, h, h2, h3, if_pos h4]
  · simp [queryNodeM, h]

/-- Witness for C7 at concrete malformed references against the one-node,
one-instance witness cluster. -/
theorem xref_malformed_notfound_witness :
    queryInstanceM nodesW "nodash" "ip" 0 = some ("", false) ∧
    queryInstanceM nodesW "web-0" "ip" 0 = some ("", false) ∧
    queryInstanceM nodesW "db-x" "ip" 0 = some ("", false) ∧
    queryInstanceM nodesW "db-5" "mac" 0 = some ("", false) ∧
    queryNodeM nodesW "unknown" "instances" 0 = some ("", false) := by
  refine ⟨(xref_malformed_notfound nodesW "nodash" "ip" 0).1 (by decide),
    ((xref_malformed_notfound nodesW "web-0" "ip" 0).2.1 "web" "0" (by decide)).1 rfl,
    ((xref_malformed_notfound nodesW "db-x" "ip" 0).2.1 "db" "x" (by decide)).2.1 (by decide),
    ((xref_malformed_notfound nodesW "db-5" "mac" 0).2.1 "db" "5" (by decide)).2.2
      nodeW 5 rfl (by decide) (Or.inr (by decide)),
    (xref_malformed_notfound nodesW "unknown" "instances" 0).2.2 rfl⟩

/-- C4: when the marker file names a still-running container, Create
stops it before the engine create runs, passes volume continuity for it
to the create, force-removes it only after a successful create, and
writes its id back to the marker file when the create fails. -/
theorem create_recreate_continuity (w : CreateWorld) (cidfile : String) (args : List String)
    (oldCid : String)
    (hread : w.cidfileContent = some oldCid) (hold : oldCid ≠ "")
    (hrun : w.running oldCid = some true) (hrm : w.removeCidfileFails = false) :
    (∀ newCid,
      w.createOut (createBaseArgs cidfile args ++ ["--volumes-from=" ++ oldCid]) =
        Except.ok newCid →
      dockerCreate w cidfile args =
        (Except.ok newCid,
         [DOp.stopC oldCid, DOp.removeFile cidfile,
          DOp.execCreate (createBaseArgs cidfile args ++ ["--volumes-from=" ++ oldCid]),
          DOp.rmForceC oldCid])) ∧
    (∀ e,
      w.createOut (createBaseArgs cidfile args ++ ["--volumes-from=" ++ oldCid]) =
        Except.error e →
      dockerCreate w cidfile args =
        (Except.error e,
         [DOp.stopC oldCid, DOp.removeFile cidfile,
          DOp.execCreate (createBaseArgs cidfile args ++ ["--volumes-from=" ++ oldCid]),
          DOp.writeFile cidfile oldCid])) := by
  constructor
  · intro newCid hc
    simp [dockerCreate, hread, hold, hrun, hrm, hc]
  · intro e hc
    simp [dockerCreate, hread, hold, hrun, hrm, hc]

/-- Witness for C4: a running prior container named old, with the engine
create once succeeding and once failing. -/
theorem create_recreate_continuity_witness :
    dockerCreate createWorldW "f.cid" ["-privileged"] =
      (Except.ok "new",
       [DOp.stopC "old", DOp.removeFile "f.cid",
        DOp.execCreate (createBaseArgs "f.cid" ["-privileged"] ++ ["--volumes-from=" ++ "old"]),
        DOp.rmForceC "old"]) ∧
    dockerCreate createWorldFailW "f.cid" [] =
      (Except.error "boom",
       [DOp.stopC "old", DOp.removeFile "f.cid",
        DOp.execCreate (createBaseArgs "f.cid" [] ++ ["--volumes-from=" ++ "old"]),
        DOp.writeFile "f.cid" "old"]) := by
  constructor
  · exact (create_recreate_continuity createWorldW "f.cid" ["-privileged"] "old"
      rfl (by decide) rfl rfl).1 "new" rfl
  · exact (create_recreate_continuity createWorldFailW "f.cid" [] "old"
      rfl (by decide) rfl rfl).2 "boom" rfl

theorem startPollGo_timeout (inspect : Nat → Option Bool) :
    ∀ fuel i, (∀ j, j < i + fuel → inspect j ≠ some true) →
      startPollGo inspect i fuel =
        (Except.error "Start timeout", (List.range' (i + 1) fuel).map (fun k => k * 100)) := by
  intro fuel
  induction fuel with
  | zero => intro i h; rfl
  | succ f ih =>
    intro i h
    have hi : inspect i ≠ some true := h i (by omega)
    have hrec := ih (i + 1) (fun j hj => h j (by omega))
    rcases hx : inspect i with _ | b
    · simp only [startPollGo, hx, hrec, List.range'_succ, List.map_cons]
    · cases b
      · simp only [startPollGo, hx, hrec, List.range'_succ, List.map_cons]
      · exact absurd hx hi

theorem startPollGo_congr (inspect inspect2 : Nat → Option Bool) :
    ∀ fuel i, (∀ j, j < i + fuel → inspect j = inspect2 j) →
      startPollGo inspect i fuel = startPollGo inspect2 i fuel := by
  intro fuel
  induction fuel with
  | zero => intro i h; rfl
  | succ f ih =>
    intro i h
    have hi : inspect i = inspect2 i := h i (by omega)
    have hrec := ih (i + 1) (fun j hj => h j (by omega))
    simp only [startPollGo, hi, hrec]

/-- C5: the attached-start confirmation poll makes exactly 8 attempts
with linearly increasing delays - its outcome never depends on inspect
results past the 8th attempt - and reports the start-timeout error when
no attempt confirms the container running; any start failure makes the
instance force-remove the just-created container before returning the
error. -/
theorem start_poll_timeout_and_cleanup (inspect inspect2 : Nat → Option Bool)
    (h8 : ∀ i, i < 8 → inspect i ≠ some true)
    (hsame : ∀ i, i < 8 → inspect i = inspect2 i)
    (detach : Bool) (cid cidfile : String) (runRes launchRes : Except String Unit) (e : String)
    (hcid : cid ≠ "") (hcf : cidfile ≠ "")
    (hfail : (if detach then dockerStart false runRes launchRes inspect
              else dockerStart true runRes launchRes inspect).1 = Except.error e) :
    startPoll inspect =
      (Except.error "Start timeout", [100, 200, 300, 400, 500, 600, 700, 800]) ∧
    startPoll inspect = startPoll inspect2 ∧
    instanceStartPhase detach cid cidfile runRes launchRes inspect =
      (Except.error e, [DOp.rmForceC cid, DOp.removeFile cidfile]) := by
  refine ⟨?_, ?_, ?_⟩
  · rw [startPoll, startPollGo_timeout inspect 8 0 (fun j hj => h8 j (by omega))]
    simp [List.range']
  · rw [startPoll, startPoll, startPollGo_congr inspect inspect2 8 0 (fun j hj => hsame j (by omega))]
  · simp only [instanceStartPhase, hfail, removeModel, if_neg hcid, if_neg hcf]

/-- Witness for C5: an inspect oracle that never confirms makes the
attached start time out after the 8 delays, and the instance
force-removes the container before returning the timeout error. -/
theorem start_poll_timeout_and_cleanup_witness :
    startPoll (fun _ => none) =
      (Except.error "Start timeout", [100, 200, 300, 400, 500, 600, 700, 800]) ∧
    instanceStartPhase false "c" "f" (Except.ok ()) (Except.ok ()) (fun _ => none) =
      (Except.error "Start timeout", [DOp.rmForceC "c", DOp.removeFile "f"]) := by
  have h := start_poll_timeout_and_cleanup (fun _ => none) (fun _ => none)
    (fun i _ => by simp) (fun i _ => rfl) false "c" "f" (Except.ok ()) (Except.ok ())
    "Start timeout" (by decide) (by decide) rfl
  exact ⟨h.1, h.2.2⟩

theorem pullers_append (nm : String) (l1 l2 : List LTask) :
    pullers nm (l1 ++ l2) = pullers nm l1 + pullers nm l2 := by
  simp [pullers, List.countP_append]

theorem pullers_cons (nm : String) (t : LTask) (ts : List LTask) :
    pullers nm (t :: ts) =
      (if t.image = nm ∧ t.pc = LPC.pulling then 1 else 0) + pullers nm ts := by
  rw [pullers, List.countP_cons, pullers]
  by_cases h1 : t.image = nm
  · by_cases h2 : t.pc = LPC.pulling
    · simp [h1, h2]
      omega
    · simp [h1, h2]
  · by_cases h2 : t.pc = LPC.pulling
    · simp [h1, h2]
    · simp [h1, h2]

theorem pullers_middle (nm : String) (pre post : List LTask) (t : LTask) :
    pullers nm (pre ++ t :: post) =
      pullers nm pre +
        ((if t.image = nm ∧ t.pc = LPC.pulling then 1 else 0) + pullers nm post) := by
  rw [pullers_append, pullers_cons]

theorem pullers_init (nm : String) (names : List String) :
    pullers nm (names.map (fun n => LTask.mk n LPC.start)) = 0 := by
  rw [pullers, List.countP_eq_zero]
  intro t ht
  rcases List.mem_map.mp ht with ⟨n, _, rfl⟩
  simp

theorem LInv_init (pull : String → Option String) (names : List String) :
    LInv pull (initLState names) := by
  refine ⟨fun nm _ => ⟨rfl, pullers_init nm names⟩, fun nm e h => ?_, fun nm e h => ?_,
    fun t ht r hr => ?_⟩
  · exact absurd h (by simp [initLState])
  · exact absurd h (by simp [initLState])
  · rcases List.mem_map.mp ht with ⟨n, _, rfl⟩
    simp at hr

theorem LInv_step (pull : String → Option String) (s s2 : LState)
    (hs : LInv pull s) (st : LStep pull s s2) : LInv pull s2 := by
  obtain ⟨hNone, hInc, hCom, hDone⟩ := hs
  cases st with
  | enterNew pre post nm ht himg ht2 himg2 hc2 =>
    have hpold : ∀ m, pullers m s.tasks = pullers m pre + pullers m post := by
      intro m
      rw [ht, pullers_middle]
      simp
    have hpnew : ∀ m, pullers m s2.tasks =
        pullers m pre + ((if nm = m then 1 else 0) + pullers m post) := by
      intro m
      rw [ht2, pullers_middle]
      by_cases h : nm = m <;> simp [h]
    refine ⟨fun m hm => ?_, fun m e hm hce => ?_, fun m e hm hce => ?_,
      fun t htm r hr => ?_⟩
    · rw [himg2 m] at hm
      by_cases h : m = nm
      · rw [if_pos h] at hm
        cases hm
      · rw [if_neg h] at hm
        obtain ⟨h1, h2⟩ := hNone m hm
        refine ⟨by rw [hc2 m]; exact h1, ?_⟩
        rw [hpnew m, if_neg (fun he => h he.symm)]
        rw [hpold m] at h2
        omega
    · rw [himg2 m] at hm
      by_cases h : m = nm
      · rw [if_pos h] at hm
        obtain ⟨h1, h2⟩ := hNone nm himg
        rw [hpold nm] at h2
        refine ⟨by rw [hc2 m, h]; exact h1, ?_⟩
        rw [hpnew m, if_pos h.symm, h]
        omega
      · rw [if_neg h] at hm
        obtain ⟨h1, h2⟩ := hInc m e hm hce
        refine ⟨by rw [hc2 m]; exact h1, ?_⟩
        rw [hpnew m, if_neg (fun he => h he.symm)]
        rw [hpold m] at h2
        omega
    · rw [himg2 m] at hm
      by_cases h : m = nm
      · rw [if_pos h] at hm
        injection hm with he
        rw [← he] at hce
        simp at hce
      · rw [if_neg h] at hm
        obtain ⟨h1, h2, h3⟩ := hCom m e hm hce
        refine ⟨h1, by rw [hc2 m]; exact h2, ?_⟩
        rw [hpnew m, if_neg (fun he => h he.symm)]
        rw [hpold m] at h3
        omega
    · rw [ht2] at htm
      rcases List.mem_append.mp htm with hpre | hrest
      · have htold : t ∈ s.tasks := by
          rw [ht]
          exact List.mem_append_left _ hpre
        obtain ⟨e1, hie, hce, hre⟩ := hDone t htold r hr
        refine ⟨e1, ?_, hce, hre⟩
        rw [himg2 t.image]
        by_cases h : t.image = nm
        · rw [h, himg] at hie
          cases hie
        · rw [if_neg h]
          exact hie
      · rcases List.mem_cons.mp hrest with heq | hpost
        · rw [heq] at hr
          simp at hr
        · have htold : t ∈ s.tasks := by
            rw [ht]
            exact List.mem_append_right _ (List.mem_cons_of_mem _ hpost)
          obtain ⟨e1, hie, hce, hre⟩ := hDone t htold r hr
          refine ⟨e1, ?_, hce, hre⟩
          rw [himg2 t.image]
          by_cases h : t.image = nm
          · rw [h, himg] at hie
            cases hie
          · rw [if_neg h]
            exact hie
  | enterWait pre post nm e0 ht himg ht2 himg2 hc2 =>
    have hpeq : ∀ m, pullers m s2.tasks = pullers m s.tasks := by
      intro m
      rw [ht2, ht, pullers_middle, pullers_middle]
      simp
    refine ⟨fun m hm => ?_, fun m e hm hce => ?_, fun m e hm hce => ?_,
      fun t htm r hr => ?_⟩
    · rw [himg2 m] at hm
      obtain ⟨h1, h2⟩ := hNone m hm
      exact ⟨by rw [hc2 m]; exact h1, by rw [hpeq m]; exact h2⟩
    · rw [himg2 m] at hm
      obtain ⟨h1, h2⟩ := hInc m e hm hce
      exact ⟨by rw [hc2 m]; exact h1, by rw [hpeq m]; exact h2⟩
    · rw [himg2 m] at hm
      obtain ⟨h1, h2, h3⟩ := hCom m e hm hce
      exact ⟨h1, by rw [hc2 m]; exact h2, by rw [hpeq m]; exact h3⟩
    · rw [ht2] at htm
      rcases List.mem_append.mp htm with hpre | hrest
      · have htold : t ∈ s.tasks := by
          rw [ht]
          exact List.mem_append_left _ hpre
        obtain ⟨e1, hie, hce, hre⟩ := hDone t htold r hr
        exact ⟨e1, by rw [himg2 t.image]; exact hie, hce, hre⟩
      · rcases List.mem_cons.mp hrest with heq | hpost
        · rw [heq] at hr
          simp at hr
        · have htold : t ∈ s.tasks := by
            rw [ht]
            exact List.mem_append_right _ (List.mem_cons_of_mem _ hpost)
          obtain ⟨e1, hie, hce, hre⟩ := hDone t htold r hr
          exact ⟨e1, by rw [himg2 t.image]; exact hie, hce, hre⟩
  | doPull pre post nm ht ht2 himg2 hc2 =>
    have hpl1 : pullers nm s.tasks = pullers nm pre + (1 + pullers nm post) := by
      rw [ht, pullers_middle]
      simp
    have holde : ∃ e0, s.images nm = some e0 ∧ e0.complete = false := by
      cases hi : s.images nm with
      | none =>
        obtain ⟨_, h2⟩ := hNone nm hi
        rw [hpl1] at h2
        omega
      | some e0 =>
        cases hce : e0.complete
        · exact ⟨e0, rfl, hce⟩
        · obtain ⟨_, _, h3⟩ := hCom nm e0 hi hce
          rw [hpl1] at h3
          omega
    obtain ⟨e0, hie0, hce0⟩ := holde
    obtain ⟨hcnt0, hpl0⟩ := hInc nm e0 hie0 hce0
    have hprepost : pullers nm pre = 0 ∧ pullers nm post = 0 := by
      rw [hpl1] at hpl0
      omega
    have hpnew : ∀ m, pullers m s2.tasks = pullers m pre + pullers m post := by
      intro m
      rw [ht2, pullers_middle]
      simp
    have hpold2 : ∀ m, m ≠ nm → pullers m s.tasks = pullers m pre + pullers m post := by
      intro m hm
      rw [ht, pullers_middle, if_neg (fun hand => hm hand.1.symm)]
      omega
    refine ⟨fun m hm => ?_, fun m e hm hce => ?_, fun m e hm hce => ?_,
      fun t htm r hr => ?_⟩
    · rw [himg2 m] at hm
      by_cases h : m = nm
      · rw [if_pos h] at hm
        cases hm
      · rw [if_neg h] at hm
        obtain ⟨h1, h2⟩ := hNone m hm
        refine ⟨by rw [hc2 m, if_neg h]; exact h1, ?_⟩
        rw [hpnew m]
        rw [hpold2 m h] at h2
        omega
    · rw [himg2 m] at hm
      by_cases h : m = nm
      · rw [if_pos h] at hm
        injection hm with he
        rw [← he] at hce
        simp at hce
      · rw [if_neg h] at hm
        obtain ⟨h1, h2⟩ := hInc m e hm hce
        refine ⟨by rw [hc2 m, if_neg h]; exact h1, ?_⟩
        rw [hpnew m]
        rw [hpold2 m h] at h2
        omega
    · rw [himg2 m] at hm
      by_cases h : m = nm
      · rw [if_pos h] at hm
        injection hm with he
        refine ⟨?_, ?_, ?_⟩
        · rw [← he, h]
        · rw [hc2 m, if_pos h, h, hcnt0]
        · rw [hpnew m, h]
          omega
      · rw [if_neg h] at hm
        obtain ⟨h1, h2, h3⟩ := hCom m e hm hce
        refine ⟨h1, by rw [hc2 m, if_neg h]; exact h2, ?_⟩
        rw [hpnew m]
        rw [hpold2 m h] at h3
        omega
    · rw [ht2] at htm
      rcases List.mem_append.mp htm with hpre | hrest
      · have htold : t ∈ s.tasks := by
          rw [ht]
          exact List.mem_append_left _ hpre
        obtain ⟨e1, hie, hce, hre⟩ := hDone t htold r hr
        refine ⟨e1, ?_, hce, hre⟩
        rw [himg2 t.image]
        by_cases h : t.image = nm
        · rw [h, hie0] at hie
          injection hie with he1
          rw [← he1] at hce
          rw [hce0] at hce
          cases hce
        · rw [if_neg h]
          exact hie
      · rcases List.mem_cons.mp hrest with heq | hpost
        · rw [heq] at hr
          simp only [LPC.done.injEq] at hr
          refine ⟨ILEntry.mk true (pull nm), ?_, rfl, ?_⟩
          · rw [heq]
            simp only
            rw [himg2 nm, if_pos rfl]
          · rw [heq]
            simp only
            rw [← hr]
        · have htold : t ∈ s.tasks := by
            rw [ht]
            exact List.mem_append_right _ (List.mem_cons_of_mem _ hpost)
          obtain ⟨e1, hie, hce, hre⟩ := hDone t htold r hr
          refine ⟨e1, ?_, hce, hre⟩
          rw [himg2 t.image]
          by_cases h : t.image = nm
          · rw [h, hie0] at hie
            injection hie with he1
            rw [← he1] at hce
            rw [hce0] at hce
            cases hce
          · rw [if_neg h]
            exact hie
  | finishWait pre post nm e0 ht himg hcom ht2 himg2 hc2 =>
    have hpeq : ∀ m, pullers m s2.tasks = pullers m s.tasks := by
      intro m
      rw [ht2, ht, pullers_middle, pullers_middle]
      simp
    obtain ⟨herr0, hcnt0, hpl0⟩ := hCom nm e0 himg hcom
    refine ⟨fun m hm => ?_, fun m e hm hce => ?_, fun m e hm hce => ?_,
      fun t htm r hr => ?_⟩
    · rw [himg2 m] at hm
      obtain ⟨h1, h2⟩ := hNone m hm
      exact ⟨by rw [hc2 m]; exact h1, by rw [hpeq m]; exact h2⟩
    · rw [himg2 m] at hm
      obtain ⟨h1, h2⟩ := hInc m e hm hce
      exact ⟨by rw [hc2 m]; exact h1, by rw [hpeq m]; exact h2⟩
    · rw [himg2 m] at hm
      obtain ⟨h1, h2, h3⟩ := hCom m e hm hce
      exact ⟨h1, by rw [hc2 m]; exact h2, by rw [hpeq m]; exact h3⟩
    · rw [ht2] at htm
      rcases List.mem_append.mp htm with hpre | hrest
      · have htold : t ∈ s.tasks := by
          rw [ht]
          exact List.mem_append_left _ hpre
        obtain ⟨e1, hie, hce, hre⟩ := hDone t htold r hr
        exact ⟨e1, by rw [himg2 t.image]; exact hie, hce, hre⟩
      · rcases List.mem_cons.mp hrest with heq | hpost
        · rw [heq] at hr
          simp only [LPC.done.injEq] at hr
          refine ⟨e0, ?_, hcom, ?_⟩
          · rw [heq]
            simp only
            rw [himg2 nm]
            exact himg
          · rw [heq]
            simp only
            rw [← hr, herr0]
        · have htold : t ∈ s.tasks := by
            rw [ht]
            exact List.mem_append_right _ (List.mem_cons_of_mem _ hpost)
          obtain ⟨e1, hie, hce, hre⟩ := hDone t htold r hr
          exact ⟨e1, by rw [himg2 t.image]; exact hie, hce, hre⟩

theorem LInv_reach (pull : String → Option String) (names : List String) (s : LState)
    (h : LReach pull names s) : LInv pull s := by
  induction h with
  | init => exact LInv_init pull names
  | step s1 s2 hr hst ih => exact LInv_step pull s1 s2 ih hst

/-- C1: along every interleaving of concurrent LoadImage callers, the
driver pull runs at most once per image name, and every caller that has
returned for an image holds exactly the shared pull result recorded in
that image's single completed loader entry, with the pull having run
exactly once for it. -/
theorem loadImage_pull_once_shared (pull : String → Option String) (names : List String)
    (s : LState) (h : LReach pull names s) :
    (∀ nm, s.pullCount nm ≤ 1) ∧
    (∀ t, t ∈ s.tasks → ∀ r, t.pc = LPC.done r →
      r = pull t.image ∧ s.pullCount t.image = 1 ∧
      s.images t.image = some (ILEntry.mk true (pull t.image))) := by
  obtain ⟨hNone, hInc, hCom, hDone⟩ := LInv_reach pull names s h
  constructor
  · intro nm
    cases hi : s.images nm with
    | none => simp [(hNone nm hi).1]
    | some e =>
      cases hc : e.complete
      · simp [(hInc nm e hi hc).1]
      · simp [(hCom nm e hi hc).2.1]
  · intro t ht r hr
    obtain ⟨e, hie, hce, hre⟩ := hDone t ht r hr
    obtain ⟨herr, hcnt, _⟩ := hCom t.image e hie hce
    refine ⟨hre, hcnt, ?_⟩
    rw [hie]
    cases e
    simp_all

/-- Witness for C1: two concurrent callers for the same image; after an
explicit complete interleaving, the pull ran exactly once and both
callers hold the shared recorded result. -/
theorem loadImage_pull_once_shared_witness :
    c1FinalState.pullCount "img" = 1 ∧ c1FinalState.pullCount "img" ≤ 1 ∧
    c1FinalState.images "img" = some (ILEntry.mk true none) := by
  have h0 : LReach (fun _ => none) ["img", "img"] (initLState ["img", "img"]) :=
    LReach.init
  have h1 : LReach (fun _ => none) ["img", "img"]
      (LState.mk (fun m => if m = "img" then some (ILEntry.mk false none) else none)
        (fun _ => 0)
        [LTask.mk "img" LPC.pulling, LTask.mk "img" LPC.start]) :=
    LReach.step _ _ h0
      (LStep.enterNew _ _ [] [LTask.mk "img" LPC.start] "img" rfl rfl rfl
        (fun m => rfl) (fun m => rfl))
  have h2 : LReach (fun _ => none) ["img", "img"]
      (LState.mk (fun m => if m = "img" then some (ILEntry.mk false none) else none)
        (fun _ => 0)
        [LTask.mk "img" LPC.pulling, LTask.mk "img" LPC.waiting]) :=
    LReach.step _ _ h1
      (LStep.enterWait _ _ [LTask.mk "img" LPC.pulling] [] "img" (ILEntry.mk false none)
        rfl rfl rfl (fun m => rfl) (fun m => rfl))
  have h3 : LReach (fun _ => none) ["img", "img"]
      (LState.mk (fun m => if m = "img" then some (ILEntry.mk true none) else none)
        (fun m => if m = "img" then 1 else 0)
        [LTask.mk "img" (LPC.done none), LTask.mk "img" LPC.waiting]) :=
    LReach.step _ _ h2
      (LStep.doPull _ _ [] [LTask.mk "img" LPC.waiting] "img" rfl rfl
        (by intro m; by_cases h : m = "img" <;> simp [h])
        (by intro m; by_cases h : m = "img" <;> simp [h]))
  have h4 : LReach (fun _ => none) ["img", "img"] c1FinalState :=
    LReach.step _ _ h3
      (LStep.finishWait _ _ [LTask.mk "img" (LPC.done none)] [] "img" (ILEntry.mk true none)
        rfl rfl rfl rfl (fun m => rfl) (fun m => rfl))
  have h := loadImage_pull_once_shared (fun _ => none) ["img", "img"] c1FinalState h4
  have hd := h.2 (LTask.mk "img" (LPC.done none)) (by simp [c1FinalState]) none rfl
  exact ⟨hd.2.1, h.1 "img", hd.2.2⟩
